import Mathlib

/-!
Verification of the Helios multi-wallet batch execution engine.

Shallow embedding of `src/helios_multi_bot.py`, `src/helios_operations.py`
and `src/wallet_manager.py`.  Python floats carrying token amounts are
modelled as exact rationals (`ℚ`); Python dicts become structures; fallible
calls return `Except String`.  Remote calls (chain RPC) are modelled as
explicit oracles passed in as parameters: the oracle gives the outcome of
each attempted call, and the embedded code decides what to do with it,
mirroring the source's control flow.
-/

namespace HeliosSpec

/-- A credential as produced by `WalletFileManager.load_wallets_from_txt`:
the dict with keys id / private_key / address / filename / line_number. -/
structure Wallet where
  id : String
  private_key : String
  address : String
  filename : String
  line_number : Nat
deriving DecidableEq

/-- The per-wallet result dict built by
`HeliosMultiBot.process_wallet_operations`.  `pending_rewards` is added at
line 106 of `helios_multi_bot.py`; `error` is only set on the error path
(whose dict is discarded because the exception is re-raised). -/
structure WalletResult where
  wallet_id : String
  address : String
  filename : String
  initial_balance : ℚ
  final_balance : ℚ
  stake_tx : Option String
  compound_tx : Option String
  stake_amount : ℚ
  compound_amount : ℚ
  pending_rewards : ℚ
  status : String
  error : Option String
deriving DecidableEq

/-- The transaction summary dict appended to `results['transactions']`. -/
structure TxSummary where
  wallet_id : String
  stake_tx : Option String
  compound_tx : Option String
  stake_amount : ℚ
  compound_amount : ℚ
deriving DecidableEq

/-- The `results` dict of `HeliosMultiBot.process_wallet_batch`. -/
@[ext] structure BatchResults where
  batch_number : Nat
  processed : Nat
  successful_stakes : Nat
  successful_compounds : Nat
  total_staked : ℚ
  total_compounded : ℚ
  errors : Nat
  transactions : List TxSummary
  wallet_details : List WalletResult
deriving DecidableEq

/-- Python truthiness of an `Optional[str]`: `None` and the empty string
are falsy, every other string is truthy.  Used wherever the source writes
`if tx:` / `if result.get('stake_tx'):`. -/
def isTruthy : Option String → Bool
  | none => false
  | some s => decide (s ≠ "")

/-! ## Batch Partitioner (`HeliosMultiBot.get_batch_wallets`, lines 147-168) -/

/-- The flattening loop at the top of `get_batch_wallets`: `flat_wallets`
is extended with each file's wallet list in dict order. -/
def flattenWallets (all_wallets : List (String × List Wallet)) : List Wallet :=
  all_wallets.foldl (fun acc p => acc ++ p.2) []

/-- Source: `batch_size = max(1, (total_wallets + self.total_batches - 1) // self.total_batches)`. -/
def batchSize (total_wallets total_batches : Nat) : Nat :=
  max 1 ((total_wallets + total_batches - 1) / total_batches)

/-- Embeds `HeliosMultiBot.get_batch_wallets`: flatten, early-return on an empty
wallet set, then take the slice `flat_wallets[start_idx:end_idx]` with
`start_idx = (batch_number - 1) * batch_size` and
`end_idx = min(start_idx + batch_size, total_wallets)`. -/
def get_batch_wallets (all_wallets : List (String × List Wallet))
    (batch_number total_batches : Nat) : List Wallet :=
  let flat_wallets := flattenWallets all_wallets
  let total_wallets := flat_wallets.length
  if total_wallets = 0 then []
  else
    let batch_size := batchSize total_wallets total_batches
    let start_idx := (batch_number - 1) * batch_size
    let end_idx := min (start_idx + batch_size) total_wallets
    (flat_wallets.drop start_idx).take (end_idx - start_idx)

/-- The partitioning algorithm exactly as the spec words it (claim C3):
`batch_size = ceil(total_count / total_batches)` (written with the usual
`(a + b - 1) / b` ceiling division, exact for `total_batches ≥ 1`),
`start = (batch_number - 1) * batch_size`,
`end = min(start + batch_size, total_count)`, slice `[start, end)`.
This is the spec-side comparand for the refinement proof; the source-side
definition is `get_batch_wallets` above. -/
def specPartitionSlice (creds : List Wallet) (batch_number total_batches : Nat) : List Wallet :=
  let total_count := creds.length
  let batch_size := (total_count + total_batches - 1) / total_batches
  let start := (batch_number - 1) * batch_size
  let stop := min (start + batch_size) total_count
  (creds.drop start).take (stop - start)

/-! ## Batch Coordinator (`HeliosMultiBot.process_wallet_batch`, lines 27-83)

`asyncio.gather(*tasks, return_exceptions=True)` waits for every dispatched
task to reach a terminal state and yields one outcome per task, in dispatch
order: either the returned result dict or the captured exception.  An
outcome is therefore modelled as `Except String WalletResult` and the
coordinator's aggregation loop as a fold over the outcome list. -/

/-- Whether a gathered outcome is a captured exception
(`isinstance(result, Exception)`). -/
def isExn : Except String WalletResult → Bool
  | .error _ => true
  | .ok _ => false

/-- The result dict carried by a non-exception outcome. -/
def okOf : Except String WalletResult → Option WalletResult
  | .error _ => none
  | .ok r => some r

/-- The result dicts among a list of outcomes, in order. -/
def okResults (os : List (Except String WalletResult)) : List WalletResult :=
  os.filterMap okOf

/-- The `result.get('stake_tx')` truthiness test of the aggregation loop. -/
def hasStake (r : WalletResult) : Bool := isTruthy r.stake_tx

/-- The `result.get('compound_tx')` truthiness test of the aggregation loop. -/
def hasCompound (r : WalletResult) : Bool := isTruthy r.compound_tx

/-- The transaction summary dict built at lines 75-81 of
`helios_multi_bot.py`. -/
def txOf (r : WalletResult) : TxSummary :=
  { wallet_id := r.wallet_id
    stake_tx := r.stake_tx
    compound_tx := r.compound_tx
    stake_amount := r.stake_amount
    compound_amount := r.compound_amount }

/-- Sum of `stake_amount` over the outcomes whose result dict has a truthy
`stake_tx`. -/
def stakedSum (os : List (Except String WalletResult)) : ℚ :=
  (((okResults os).filter hasStake).map WalletResult.stake_amount).sum

/-- Sum of `compound_amount` over the outcomes whose result dict has a
truthy `compound_tx`. -/
def compoundedSum (os : List (Except String WalletResult)) : ℚ :=
  (((okResults os).filter hasCompound).map WalletResult.compound_amount).sum

/-- The transaction summaries appended by the aggregation loop, in order. -/
def txList (os : List (Except String WalletResult)) : List TxSummary :=
  ((okResults os).filter (fun r => hasStake r || hasCompound r)).map txOf

/-- The initial `results` dict of `process_wallet_batch` (lines 29-39). -/
def initResults (batch_number : Nat) : BatchResults :=
  { batch_number := batch_number
    processed := 0
    successful_stakes := 0
    successful_compounds := 0
    total_staked := 0
    total_compounded := 0
    errors := 0
    transactions := []
    wallet_details := [] }

/-- One iteration of the aggregation loop (lines 55-81).  `processed` is
incremented unconditionally; a captured exception only increments `errors`;
otherwise the result dict (always truthy, being a non-empty dict) is
appended to `wallet_details` and the stake / compound counters and the
transaction list are updated from its truthy transaction ids. -/
def aggregateOutcome (acc : BatchResults) (o : Except String WalletResult) : BatchResults :=
  let acc1 := { acc with processed := acc.processed + 1 }
  match o with
  | .error _ => { acc1 with errors := acc1.errors + 1 }
  | .ok result =>
    let acc2 := { acc1 with wallet_details := acc1.wallet_details ++ [result] }
    let acc3 :=
      if isTruthy result.stake_tx then
        { acc2 with successful_stakes := acc2.successful_stakes + 1
                    total_staked := acc2.total_staked + result.stake_amount }
      else acc2
    let acc4 :=
      if isTruthy result.compound_tx then
        { acc3 with successful_compounds := acc3.successful_compounds + 1
                    total_compounded := acc3.total_compounded + result.compound_amount }
      else acc3
    if isTruthy result.stake_tx || isTruthy result.compound_tx then
      { acc4 with transactions := acc4.transactions ++ [txOf result] }
    else acc4

/-- Embeds `HeliosMultiBot.process_wallet_batch`: fold the aggregation loop over
the gathered outcomes, starting from the zeroed `results` dict. -/
def process_wallet_batch (batch_number : Nat)
    (outcomes : List (Except String WalletResult)) : BatchResults :=
  outcomes.foldl aggregateOutcome (initResults batch_number)

/-! ## Operation layer (`helios_operations.py`)

Remote chain calls are modelled as oracles: an attempt oracle
`Nat → Except String α` gives the outcome of the k-th attempt of a call.
The tenacity `@retry` decorator becomes `retryFrom`: it runs attempts in
order until one succeeds or the attempt budget is exhausted, in which case
the last failure propagates as an exception. -/

/-- Tenacity retry: run attempt `i`, and on failure retry with the next
attempt while the budget (second `Nat` argument) lasts; the final failure
is propagated. -/
def retryFrom (f : Nat → Except String α) : Nat → Nat → Except String α
  | _, 0 => .error "RetryError"
  | i, n + 1 =>
    match f i with
    | .ok a => .ok a
    | .error e => if n = 0 then .error e else retryFrom f (i + 1) n

/-- The `wait_exponential(multiplier=1, min=4, max=10)` delay (seconds)
before the retry following attempt `attempt`, clamped into
`[wmin, wmax]`. -/
def wait_exponential (multiplier wmin wmax : ℚ) (attempt : Nat) : ℚ :=
  max wmin (min wmax (multiplier * 2 ^ attempt))

/-- The configuration of a `@retry` decorator. -/
structure RetryPolicy where
  max_attempts : Nat
  wait : Nat → ℚ

/-- Source decorator `@retry(stop=stop_after_attempt(3), wait=wait_exponential(multiplier=1, min=4, max=10))`
on `HeliosOperations.get_wallet_balance` (line 34). -/
def balance_fetch_retry : Option RetryPolicy :=
  some { max_attempts := 3, wait := wait_exponential 1 4 10 }

/-- The identical decorator on `HeliosOperations.execute_stake_operation`
(line 45). -/
def stake_submission_retry : Option RetryPolicy :=
  some { max_attempts := 3, wait := wait_exponential 1 4 10 }

/-- Decorator record: `HeliosOperations.execute_auto_compound` (line 90) carries no retry
decorator. -/
def compound_submission_retry : Option RetryPolicy := none

/-- Embeds `HeliosOperations.get_wallet_balance`: the decorated body re-raises any
attempt failure (its `except` clause logs and `raise`s), so the call is the
retry combinator over the raw attempt oracle with a budget of 3. -/
def get_wallet_balance (attempts : Nat → Except String ℚ) : Except String ℚ :=
  retryFrom attempts 0 3

/-- Embeds `HeliosOperations.get_pending_rewards`: a placeholder that returns
`0.0` on every path (the `try` body returns the constant `0.0` and the
`except` clause also returns `0.0`). -/
def get_pending_rewards (_address : String) : ℚ := 0

/-- The dict returned by `HeliosOperations.get_wallet_info`. -/
structure WalletInfo where
  address : String
  balance : ℚ
  pending_rewards : ℚ
  total_value : ℚ
  error : Option String
deriving DecidableEq

/-- Embeds `HeliosOperations.get_wallet_info` (lines 167-187): fetch the balance
(with retry) and the pending rewards; any exception — including the
`RetryError` after exhausted balance retries — is caught and turned into a
default dict with zero balance and the error message.  This function never
raises. -/
def get_wallet_info (attempts : Nat → Except String ℚ) (address : String) : WalletInfo :=
  match get_wallet_balance attempts with
  | .ok balance =>
    let pending_rewards := get_pending_rewards address
    { address := address
      balance := balance
      pending_rewards := pending_rewards
      total_value := balance + pending_rewards
      error := none }
  | .error e =>
    { address := address
      balance := 0
      pending_rewards := 0
      total_value := 0
      error := some e }

/-- Embeds `HeliosOperations.execute_stake_operation` (lines 45-88): the whole
body sits in a `try/except` that returns `None` on any exception, so each
decorated attempt yields `Ok` of the body's value (`None` on gas-price
decline, failed receipt, or any raised error; the tx hash on success).
The attempt oracle gives the raw body outcome (`.error` = the body raised)
of each attempt before the catch-all. -/
def execute_stake_operation (attempts : Nat → Except String (Option String)) :
    Except String (Option String) :=
  retryFrom
    (fun i =>
      match attempts i with
      | .ok r => .ok r
      | .error _ => .ok none)
    0 3

/-- Embeds `HeliosOperations.execute_auto_compound` (lines 90-124): no retry
decorator; re-reads the pending rewards via the stub and only submits when
they exceed `0.1`; the catch-all `except` returns `None`, and falling
through the `if` also returns `None`.  `body` is the raw outcome of the
submission code, were it reached. -/
def execute_auto_compound (body : Except String (Option String)) (address : String) :
    Except String (Option String) :=
  let pending_rewards := get_pending_rewards address
  if pending_rewards > 1 / 10 then
    match body with
    | .ok r => .ok r
    | .error _ => .ok none
  else .ok none

/-! ## Wallet Task Runner (`HeliosMultiBot.process_wallet_operations`,
lines 85-145)

The runner's collaborators are abstracted into `RunnerEnv`: the outcome of
the initial `get_wallet_info` call, the stake submission as a function of
the submitted amount, the compound submission, and the final
`get_wallet_info` call.  The `except` clause at lines 139-143 sets
`status='error'` on the local result dict and then re-raises; the mutated
dict is discarded by the `raise`, so the embedded runner returns the
exception itself on every failure path. -/

structure RunnerEnv where
  info1 : Except String WalletInfo
  stakeFn : ℚ → Except String (Option String)
  compoundFn : Unit → Except String (Option String)
  info2 : Except String WalletInfo

/-- The initial result dict of `process_wallet_operations`
(lines 87-98). -/
def initResult (wallet : Wallet) : WalletResult :=
  { wallet_id := wallet.id
    address := wallet.address
    filename := wallet.filename
    initial_balance := 0
    final_balance := 0
    stake_tx := none
    compound_tx := none
    stake_amount := 0
    compound_amount := 0
    pending_rewards := 0
    status := "pending"
    error := none }

/-- Lines 108-120: stake 80% of the balance when it exceeds `1.0`,
recording the tx id and amount only when the provider's answer is truthy;
a raised submission error propagates. -/
def stakeStep (env : RunnerEnv) (wallet_info : WalletInfo) (r : WalletResult) :
    Except String WalletResult :=
  if wallet_info.balance > 1 then
    let stake_amount := wallet_info.balance * (4 / 5)
    match env.stakeFn stake_amount with
    | .error e => .error e
    | .ok stake_tx =>
      if isTruthy stake_tx then
        .ok { r with stake_tx := stake_tx, stake_amount := stake_amount }
      else .ok r
  else .ok r

/-- Lines 122-129: compound when the fetched pending rewards exceed `0.1`,
recording the tx id and the pending-reward amount only when the provider's
answer is truthy; a raised submission error propagates. -/
def compoundStep (env : RunnerEnv) (wallet_info : WalletInfo) (r : WalletResult) :
    Except String WalletResult :=
  if wallet_info.pending_rewards > 1 / 10 then
    match env.compoundFn () with
    | .error e => .error e
    | .ok compound_tx =>
      if isTruthy compound_tx then
        .ok { r with compound_tx := compound_tx, compound_amount := wallet_info.pending_rewards }
      else .ok r
  else .ok r

/-- Embeds `HeliosMultiBot.process_wallet_operations`: initial info fetch, stake
step, compound step, final info fetch, then mark `completed`.  Every
exception short-circuits and is re-raised to the coordinator. -/
def process_wallet_operations (env : RunnerEnv) (wallet : Wallet) :
    Except String WalletResult :=
  match env.info1 with
  | .error e => .error e
  | .ok wallet_info =>
    let r1 := { initResult wallet with
                  initial_balance := wallet_info.balance
                  pending_rewards := wallet_info.pending_rewards }
    match stakeStep env wallet_info r1 with
    | .error e => .error e
    | .ok r2 =>
      match compoundStep env wallet_info r2 with
      | .error e => .error e
      | .ok r3 =>
        match env.info2 with
        | .error e => .error e
        | .ok final_info =>
          .ok { r3 with final_balance := final_info.balance, status := "completed" }

/-- The raw chain oracles behind one full wallet task: the balance-fetch
attempt outcomes of the two `get_wallet_info` calls, the stake-submission
body outcomes per submitted amount and attempt, and the compound
submission body outcome. -/
structure ChainEnv where
  balanceAttempts1 : Nat → Except String ℚ
  balanceAttempts2 : Nat → Except String ℚ
  stakeAttempts : ℚ → Nat → Except String (Option String)
  compoundBody : Except String (Option String)

/-- One wallet task exactly as the repository wires it: the runner over
`get_wallet_info`, `execute_stake_operation` and `execute_auto_compound`
from `helios_operations.py`. -/
def runWalletTask (chain : ChainEnv) (wallet : Wallet) : Except String WalletResult :=
  process_wallet_operations
    { info1 := .ok (get_wallet_info chain.balanceAttempts1 wallet.address)
      stakeFn := fun amount => execute_stake_operation (chain.stakeAttempts amount)
      compoundFn := fun _ => execute_auto_compound chain.compoundBody wallet.address
      info2 := .ok (get_wallet_info chain.balanceAttempts2 wallet.address) }
    wallet

/-! ## Report Assembler (`HeliosMultiBot.generate_batch_report`,
lines 234-264)

The JSON summary values and the report payload are modelled structurally;
summary keys are first-class strings so that the payload's key set can be
stated.  The reports directory is a map from file name to payload;
`open(..., 'w')` + `json.dump` is an overwriting write. -/

/-- A JSON summary value: a number, a count, or a nullable string. -/
inductive JVal where
  | num : ℚ → JVal
  | nat : Nat → JVal
  | optStr : Option String → JVal
deriving DecidableEq

/-- The `summary` dict of the report payload (lines 243-251), with the
exact keys written by the source. -/
def report_summary (results : BatchResults) (execution_time : Option String) :
    List (String × JVal) :=
  [("wallets_processed", .nat results.processed),
   ("successful_stakes", .nat results.successful_stakes),
   ("successful_compounds", .nat results.successful_compounds),
   ("total_staked_hls", .num results.total_staked),
   ("total_compounded_hls", .num results.total_compounded),
   ("errors", .nat results.errors),
   ("execution_time", .optStr execution_time)]

/-- The `report_data` payload of `generate_batch_report` (lines 240-254). -/
structure ReportData where
  batch_number : Nat
  timestamp : String
  summary : List (String × JVal)
  transactions : List TxSummary
  wallet_details : List WalletResult
deriving DecidableEq

/-- Build the payload from the batch results. -/
def report_data (batch_number : Nat) (timestamp : String) (results : BatchResults)
    (execution_time : Option String) : ReportData :=
  { batch_number := batch_number
    timestamp := timestamp
    summary := report_summary results execution_time
    transactions := results.transactions
    wallet_details := results.wallet_details }

/-- The reports directory: file name to current content. -/
def ReportDir : Type := String → Option ReportData

/-- An overwriting file write. -/
def fsWrite (fs : ReportDir) (name : String) (data : ReportData) : ReportDir :=
  fun n => if n = name then some data else fs n

/-- The historical file name `f"reports/batch_{self.batch_number}_{timestamp}.json"`. -/
def report_file_name (batch_number : Nat) (timestamp : String) : String :=
  ("reports/batch_" ++ toString batch_number ++ "_") ++ timestamp ++ ".json"

/-- The latest file name `f"reports/batch_{self.batch_number}_latest.json"`. -/
def latest_file_name (batch_number : Nat) : String :=
  ("reports/batch_" ++ toString batch_number ++ "_") ++ "latest" ++ ".json"

/-- Embeds `HeliosMultiBot.generate_batch_report`: write the payload to the
timestamped historical file, then write the same payload to the `latest`
file. -/
def generate_batch_report (fs : ReportDir) (batch_number : Nat) (timestamp : String)
    (results : BatchResults) (execution_time : Option String) : ReportDir :=
  let data := report_data batch_number timestamp results execution_time
  fsWrite (fsWrite fs (report_file_name batch_number timestamp) data)
    (latest_file_name batch_number) data

/-! ## `HeliosMultiBot.run_batch` (lines 170-212)

The externally visible actions are modelled as events; the report write's
file IO is an oracle (`reportWrite`): on `.error` the exception raised
inside `generate_batch_report` propagates through `run_batch`'s outer
`try`, which logs and re-raises — in particular `print_batch_summary`
(called after `generate_batch_report`) is never reached. -/

inductive BatchEvent where
  | sample_files_created
  | report_written
  | summary_printed
deriving DecidableEq

/-- Embeds `HeliosMultiBot.run_batch`: with no wallet files, emit sample files
and return; with an empty batch slice, return; otherwise aggregate the
gathered outcomes, then persist the report (failure propagates) and print
the summary. -/
def run_batch (all_wallets : List (String × List Wallet))
    (batch_number total_batches : Nat)
    (outcomes : List (Except String WalletResult))
    (reportWrite : Except String Unit) (fs : ReportDir)
    (timestamp execution_time : String) :
    Except String (ReportDir × List BatchEvent) :=
  if all_wallets.isEmpty then
    .ok (fs, [BatchEvent.sample_files_created])
  else
    let batch_wallets := get_batch_wallets all_wallets batch_number total_batches
    if batch_wallets.isEmpty then .ok (fs, [])
    else
      let results := process_wallet_batch batch_number outcomes
      match reportWrite with
      | .error e => .error e
      | .ok _ =>
        let fs1 := generate_batch_report fs batch_number timestamp results
          (some execution_time)
        .ok (fs1, [BatchEvent.report_written, BatchEvent.summary_printed])

/-! ## Concrete sample data for scenarios and witnesses -/

/-- A sample credential as the wallet manager would load it from line `i`
of `wallets.txt`. -/
def mkW (i : Nat) : Wallet :=
  { id := "wallets_" ++ toString i
    private_key := "0xkey" ++ toString i
    address := "0xaddr" ++ toString i
    filename := "wallets.txt"
    line_number := i }

/-- Seven credentials from one wallet file (the spec's 7-credential
scenario). -/
def aw7 : List (String × List Wallet) :=
  [("wallets.txt", [mkW 1, mkW 2, mkW 3, mkW 4, mkW 5, mkW 6, mkW 7])]

/-! ## More concrete sample data -/

/-- The spec's scenario wallet info: balance `2.0`, pending rewards
`0.05`. -/
def infoDemo : WalletInfo :=
  { address := "0xaddr1"
    balance := 2
    pending_rewards := 1 / 20
    total_value := 2 + 1 / 20
    error := none }

/-- A runner environment for the scenario: the stake provider confirms a
transaction exactly when the submitted amount is `1.6`, and the compound
provider would confirm if it were ever called. -/
def envDemo : RunnerEnv :=
  { info1 := .ok infoDemo
    stakeFn := fun amount => if amount = 8 / 5 then .ok (some "0xstake1") else .ok none
    compoundFn := fun _ => .ok (some "0xcompound1")
    info2 := .ok { address := "0xaddr1", balance := 2 / 5, pending_rewards := 1 / 20,
                   total_value := 2 / 5 + 1 / 20, error := none } }

/-- The result the runner produces in the scenario: `1.6` staked, no
compound. -/
def resultDemo : WalletResult :=
  { wallet_id := (mkW 1).id
    address := (mkW 1).address
    filename := (mkW 1).filename
    initial_balance := 2
    final_balance := 2 / 5
    stake_tx := some "0xstake1"
    compound_tx := none
    stake_amount := 8 / 5
    compound_amount := 0
    pending_rewards := 1 / 20
    status := "completed"
    error := none }

/-- A completed wallet result with a confirmed stake (for coordinator
witnesses). -/
def resA : WalletResult :=
  { wallet_id := "wallets_1"
    address := "0xaddr1"
    filename := "wallets.txt"
    initial_balance := 2
    final_balance := 1
    stake_tx := some "0xtxa"
    compound_tx := none
    stake_amount := 2
    compound_amount := 0
    pending_rewards := 0
    status := "completed"
    error := none }

/-- A completed wallet result with no transactions (for coordinator
witnesses). -/
def resB : WalletResult :=
  { wallet_id := "wallets_3"
    address := "0xaddr3"
    filename := "wallets.txt"
    initial_balance := 1
    final_balance := 1
    stake_tx := none
    compound_tx := none
    stake_amount := 0
    compound_amount := 0
    pending_rewards := 0
    status := "completed"
    error := none }

/-- Three gathered outcomes, one of which is a captured exception. -/
def os3 : List (Except String WalletResult) := [.ok resA, .error "boom", .ok resB]

/-- The same outcomes with the first two swapped. -/
def os3sw : List (Except String WalletResult) := [.error "boom", .ok resA, .ok resB]

/-- The three dispatched wallets behind `os3`. -/
def ws3 : List Wallet := [mkW 1, mkW 2, mkW 3]

/-! ## Sample chain environments for the failure scenarios -/

/-- A chain where every balance-fetch attempt fails. -/
def failChain : ChainEnv :=
  { balanceAttempts1 := fun _ => .error "network unreachable"
    balanceAttempts2 := fun _ => .error "network unreachable"
    stakeAttempts := fun _ _ => .ok none
    compoundBody := .ok none }

/-- A chain with a healthy balance of `2.0` where every stake-submission
attempt raises. -/
def stakeFailChain : ChainEnv :=
  { balanceAttempts1 := fun _ => .ok 2
    balanceAttempts2 := fun _ => .ok 2
    stakeAttempts := fun _ _ => .error "submission failed"
    compoundBody := .ok none }

/-! ## Report Assembler claims -/

/-- An empty reports directory. -/
def fsEmpty : ReportDir := fun _ => none

/-! ### Partitioner helper lemmas -/

lemma take_add_split (l : List α) (m n : Nat) :
    l.take (m + n) = l.take m ++ (l.drop m).take n := by
  induction m generalizing l with
  | zero => simp
  | succ m ih =>
    cases l with
    | nil => simp
    | cons a l => simpa [Nat.succ_add] using congrArg (a :: ·) (ih l)

lemma slice_clamp (l : List α) (start s : Nat) :
    (l.drop start).take (min (start + s) l.length - start) = (l.drop start).take s := by
  rcases Nat.le_total start l.length with h | h
  · rcases Nat.le_total (start + s) l.length with h2 | h2
    · rw [Nat.min_eq_left h2, Nat.add_sub_cancel_left]
    · rw [Nat.min_eq_right h2]
      calc (l.drop start).take (l.length - start)
          = l.drop start := List.take_of_length_le (by simp)
        _ = (l.drop start).take s := (List.take_of_length_le (by simp; omega)).symm
  · rw [List.drop_eq_nil_of_le h]
    simp

lemma flatten_slices (l : List α) (s : Nat) :
    ∀ B, (((List.range B).map (fun i => (l.drop (i * s)).take s)).flatten) = l.take (B * s) := by
  intro B
  induction B with
  | zero => simp
  | succ B ih =>
    rw [List.range_succ, List.map_append, List.flatten_append, ih]
    simp only [List.map_cons, List.map_nil, List.flatten_cons, List.flatten_nil,
      List.append_nil]
    rw [Nat.succ_mul, take_add_split]

lemma total_le_mul_batchSize (total B : Nat) (hB : 1 ≤ B) :
    total ≤ B * batchSize total B := by
  unfold batchSize
  have key : total ≤ B * ((total + B - 1) / B) := by
    have hd := Nat.div_add_mod (total + B - 1) B
    have hm : (total + B - 1) % B < B := Nat.mod_lt _ (by omega)
    revert hd
    generalize B * ((total + B - 1) / B) = m
    intro hd
    omega
  exact key.trans (Nat.mul_le_mul_left _ (le_max_right _ _))

lemma flatten_map_nil (xs : List Nat) :
    ((xs.map (fun _ => ([] : List Wallet))).flatten) = [] := by
  induction xs with
  | nil => simp
  | cons x xs ih => simp [ih]

/-! ### Aggregation helper lemmas: each field of one loop iteration -/

lemma agg_batch_number (acc o) : (aggregateOutcome acc o).batch_number = acc.batch_number := by
  rcases o with e | r
  · rfl
  · by_cases h1 : isTruthy r.stake_tx <;> by_cases h2 : isTruthy r.compound_tx <;>
      simp [aggregateOutcome, h1, h2]

lemma agg_processed (acc o) : (aggregateOutcome acc o).processed = acc.processed + 1 := by
  rcases o with e | r
  · rfl
  · by_cases h1 : isTruthy r.stake_tx <;> by_cases h2 : isTruthy r.compound_tx <;>
      simp [aggregateOutcome, h1, h2]

lemma agg_errors (acc o) :
    (aggregateOutcome acc o).errors = acc.errors + (if isExn o then 1 else 0) := by
  rcases o with e | r
  · rfl
  · by_cases h1 : isTruthy r.stake_tx <;> by_cases h2 : isTruthy r.compound_tx <;>
      simp [aggregateOutcome, isExn, h1, h2]

lemma agg_details (acc o) :
    (aggregateOutcome acc o).wallet_details
      = acc.wallet_details ++ (okOf o).toList := by
  rcases o with e | r
  · simp [aggregateOutcome, okOf]
  · by_cases h1 : isTruthy r.stake_tx <;> by_cases h2 : isTruthy r.compound_tx <;>
      simp [aggregateOutcome, okOf, h1, h2]

lemma agg_stakes (acc o) :
    (aggregateOutcome acc o).successful_stakes
      = acc.successful_stakes
        + (if (okOf o).any hasStake then 1 else 0) := by
  rcases o with e | r
  · rfl
  · by_cases h1 : isTruthy r.stake_tx <;> by_cases h2 : isTruthy r.compound_tx <;>
      simp [aggregateOutcome, okOf, hasStake, h1, h2]

lemma agg_staked (acc o) :
    (aggregateOutcome acc o).total_staked
      = acc.total_staked
        + (if (okOf o).any hasStake then ((okOf o).map WalletResult.stake_amount).getD 0 else 0) := by
  rcases o with e | r
  · simp [aggregateOutcome, okOf]
  · by_cases h1 : isTruthy r.stake_tx <;> by_cases h2 : isTruthy r.compound_tx <;>
      simp [aggregateOutcome, okOf, hasStake, h1, h2]

lemma agg_compounds (acc o) :
    (aggregateOutcome acc o).successful_compounds
      = acc.successful_compounds
        + (if (okOf o).any hasCompound then 1 else 0) := by
  rcases o with e | r
  · rfl
  · by_cases h1 : isTruthy r.stake_tx <;> by_cases h2 : isTruthy r.compound_tx <;>
      simp [aggregateOutcome, okOf, hasCompound, h1, h2]

lemma agg_compounded (acc o) :
    (aggregateOutcome acc o).total_compounded
      = acc.total_compounded
        + (if (okOf o).any hasCompound then ((okOf o).map WalletResult.compound_amount).getD 0 else 0) := by
  rcases o with e | r
  · simp [aggregateOutcome, okOf]
  · by_cases h1 : isTruthy r.stake_tx <;> by_cases h2 : isTruthy r.compound_tx <;>
      simp [aggregateOutcome, okOf, hasCompound, h1, h2]

lemma agg_transactions (acc o) :
    (aggregateOutcome acc o).transactions
      = acc.transactions
        ++ (((okOf o).toList.filter (fun r => hasStake r || hasCompound r)).map txOf) := by
  rcases o with e | r
  · simp [aggregateOutcome, okOf]
  · by_cases h1 : isTruthy r.stake_tx <;> by_cases h2 : isTruthy r.compound_tx <;>
      simp [aggregateOutcome, okOf, hasStake, hasCompound, h1, h2]

/-! ### Closed forms for the whole aggregation fold -/

lemma fold_batch_number (os : List (Except String WalletResult)) :
    ∀ acc, (os.foldl aggregateOutcome acc).batch_number = acc.batch_number := by
  induction os with
  | nil => intro acc; rfl
  | cons o os ih => intro acc; rw [List.foldl_cons, ih, agg_batch_number]

lemma fold_processed (os : List (Except String WalletResult)) :
    ∀ acc, (os.foldl aggregateOutcome acc).processed = acc.processed + os.length := by
  induction os with
  | nil => intro acc; rfl
  | cons o os ih =>
    intro acc
    rw [List.foldl_cons, ih, agg_processed, List.length_cons]
    omega

lemma fold_errors (os : List (Except String WalletResult)) :
    ∀ acc, (os.foldl aggregateOutcome acc).errors = acc.errors + (os.filter isExn).length := by
  induction os with
  | nil => intro acc; rfl
  | cons o os ih =>
    intro acc
    rw [List.foldl_cons, ih, agg_errors]
    by_cases h : isExn o <;> simp [List.filter_cons, h] <;> omega

lemma fold_details (os : List (Except String WalletResult)) :
    ∀ acc, (os.foldl aggregateOutcome acc).wallet_details
      = acc.wallet_details ++ okResults os := by
  induction os with
  | nil => intro acc; simp [okResults]
  | cons o os ih =>
    intro acc
    rw [List.foldl_cons, ih, agg_details]
    rcases o with e | r <;> simp [okResults, okOf, List.filterMap_cons]

lemma fold_stakes (os : List (Except String WalletResult)) :
    ∀ acc, (os.foldl aggregateOutcome acc).successful_stakes
      = acc.successful_stakes + ((okResults os).filter hasStake).length := by
  induction os with
  | nil => intro acc; simp [okResults]
  | cons o os ih =>
    intro acc
    rw [List.foldl_cons, ih, agg_stakes]
    rcases o with e | r
    · simp [okResults, okOf, List.filterMap_cons]
    · by_cases h : hasStake r <;>
        simp [okResults, okOf, List.filterMap_cons, List.filter_cons, h] <;> omega

lemma fold_staked (os : List (Except String WalletResult)) :
    ∀ acc, (os.foldl aggregateOutcome acc).total_staked
      = acc.total_staked + stakedSum os := by
  induction os with
  | nil => intro acc; simp [stakedSum, okResults]
  | cons o os ih =>
    intro acc
    rw [List.foldl_cons, ih, agg_staked]
    rcases o with e | r
    · simp [stakedSum, okResults, okOf, List.filterMap_cons]
    · by_cases h : hasStake r <;>
        simp [stakedSum, okResults, okOf, List.filterMap_cons, List.filter_cons, h] <;> ring

lemma fold_compounds (os : List (Except String WalletResult)) :
    ∀ acc, (os.foldl aggregateOutcome acc).successful_compounds
      = acc.successful_compounds + ((okResults os).filter hasCompound).length := by
  induction os with
  | nil => intro acc; simp [okResults]
  | cons o os ih =>
    intro acc
    rw [List.foldl_cons, ih, agg_compounds]
    rcases o with e | r
    · simp [okResults, okOf, List.filterMap_cons]
    · by_cases h : hasCompound r <;>
        simp [okResults, okOf, List.filterMap_cons, List.filter_cons, h] <;> omega

lemma fold_compounded (os : List (Except String WalletResult)) :
    ∀ acc, (os.foldl aggregateOutcome acc).total_compounded
      = acc.total_compounded + compoundedSum os := by
  induction os with
  | nil => intro acc; simp [compoundedSum, okResults]
  | cons o os ih =>
    intro acc
    rw [List.foldl_cons, ih, agg_compounded]
    rcases o with e | r
    · simp [compoundedSum, okResults, okOf, List.filterMap_cons]
    · by_cases h : hasCompound r <;>
        simp [compoundedSum, okResults, okOf, List.filterMap_cons, List.filter_cons, h] <;> ring

lemma fold_transactions (os : List (Except String WalletResult)) :
    ∀ acc, (os.foldl aggregateOutcome acc).transactions
      = acc.transactions ++ txList os := by
  induction os with
  | nil => intro acc; simp [txList, okResults]
  | cons o os ih =>
    intro acc
    rw [List.foldl_cons, ih, agg_transactions]
    rcases o with e | r
    · simp [txList, okResults, okOf, List.filterMap_cons]
    · by_cases h : (hasStake r || hasCompound r) <;>
        simp [txList, okResults, okOf, List.filterMap_cons, List.filter_cons, h]

/-! ### `process_wallet_batch` field characterization -/

lemma batch_processed (bn os) : (process_wallet_batch bn os).processed = os.length := by
  rw [process_wallet_batch, fold_processed]; simp [initResults]

lemma batch_errors (bn os) :
    (process_wallet_batch bn os).errors = (os.filter isExn).length := by
  rw [process_wallet_batch, fold_errors]; simp [initResults]

lemma batch_details (bn os) :
    (process_wallet_batch bn os).wallet_details = okResults os := by
  rw [process_wallet_batch, fold_details]; simp [initResults]

lemma batch_stakes (bn os) :
    (process_wallet_batch bn os).successful_stakes
      = ((okResults os).filter hasStake).length := by
  rw [process_wallet_batch, fold_stakes]; simp [initResults]

lemma batch_staked (bn os) :
    (process_wallet_batch bn os).total_staked = stakedSum os := by
  rw [process_wallet_batch, fold_staked]
  simp [initResults]

lemma batch_compounds (bn os) :
    (process_wallet_batch bn os).successful_compounds
      = ((okResults os).filter hasCompound).length := by
  rw [process_wallet_batch, fold_compounds]; simp [initResults]

lemma batch_compounded (bn os) :
    (process_wallet_batch bn os).total_compounded = compoundedSum os := by
  rw [process_wallet_batch, fold_compounded]
  simp [initResults]

lemma batch_transactions (bn os) :
    (process_wallet_batch bn os).transactions = txList os := by
  rw [process_wallet_batch, fold_transactions]; simp [initResults]

/-! ### String helper for distinct report file names -/

lemma string_append_cancel (p s t u : String) (h : (p ++ t) ++ s = (p ++ u) ++ s) :
    t = u := by
  have hdata : (p.data ++ t.data) ++ s.data = (p.data ++ u.data) ++ s.data := by
    have h1 := congrArg String.data h
    simpa [String.data_append] using h1
  have h2 : t.data = u.data :=
    List.append_cancel_left (List.append_cancel_right hdata)
  cases t
  cases u
  exact congrArg String.mk h2

lemma report_file_name_ne (bn : Nat) (t1 t2 : String) (h : t1 ≠ t2) :
    report_file_name bn t1 ≠ report_file_name bn t2 := by
  intro hc
  exact h (string_append_cancel _ _ _ _ hc)

lemma report_file_name_ne_latest (bn : Nat) (t : String) (h : t ≠ "latest") :
    report_file_name bn t ≠ latest_file_name bn := by
  intro hc
  exact h (string_append_cancel _ _ _ _ hc)

/-! ## Partitioner normal forms -/

lemma gbw_empty (aw bn B) (h : flattenWallets aw = []) :
    get_batch_wallets aw bn B = [] := by
  simp [get_batch_wallets, h]

lemma gbw_slice (aw bn B) (hne : flattenWallets aw ≠ []) :
    get_batch_wallets aw bn B
      = ((flattenWallets aw).drop ((bn - 1) * batchSize (flattenWallets aw).length B)).take
          (batchSize (flattenWallets aw).length B) := by
  have h0 : (flattenWallets aw).length ≠ 0 := by
    simpa [List.length_eq_zero] using hne
  simp only [get_batch_wallets, h0, if_false]
  exact slice_clamp _ _ _

/-- Claim C2: for every credential sequence and every `total_batches ≥ 1`,
the batch slices concatenate (in batch order) to the original flattened
sequence; for duplicate-free credential sets the slices are pairwise
disjoint; and the partition is a deterministic function of its inputs. -/
theorem get_batch_wallets_partition (aw : List (String × List Wallet)) (B : Nat)
    (hB : 1 ≤ B) :
    ((((List.range B).map (fun i => get_batch_wallets aw (i + 1) B)).flatten)
        = flattenWallets aw) ∧
    ((flattenWallets aw).Nodup → ∀ bi bj, 1 ≤ bi → bi < bj →
        (get_batch_wallets aw bi B).Disjoint (get_batch_wallets aw bj B)) ∧
    (∀ bn, get_batch_wallets aw bn B = get_batch_wallets aw bn B) := by
  by_cases hl : flattenWallets aw = []
  · refine ⟨?_, ?_, fun _ => rfl⟩
    · rw [List.map_congr_left (fun i _ => gbw_empty aw (i + 1) B hl), flatten_map_nil, hl]
    · intro _ bi bj _ _
      rw [gbw_empty aw bi B hl]
      simp
  · set l := flattenWallets aw with hldef
    set s := batchSize l.length B with hsdef
    have hslice : ∀ bn, get_batch_wallets aw bn B = (l.drop ((bn - 1) * s)).take s :=
      fun bn => gbw_slice aw bn B hl
    refine ⟨?_, ?_, fun _ => rfl⟩
    · have hmap : (List.range B).map (fun i => get_batch_wallets aw (i + 1) B)
          = (List.range B).map (fun i => (l.drop (i * s)).take s) :=
        List.map_congr_left (fun i _ => by rw [hslice (i + 1)]; simp)
      rw [hmap, flatten_slices]
      exact List.take_of_length_le (total_le_mul_batchSize l.length B hB)
    · intro hnd bi bj hbi hlt
      rw [hslice bi, hslice bj]
      have hsub1 : (l.drop ((bi - 1) * s)).take s ⊆ l.take ((bi - 1) * s + s) := by
        rw [List.take_drop]
        exact List.drop_subset _ _
      have hsub2 : (l.drop ((bj - 1) * s)).take s ⊆ l.drop ((bj - 1) * s) :=
        List.take_subset _ _
      have hle : (bi - 1) * s + s ≤ (bj - 1) * s := by
        have h1 : (bi - 1) * s + s = bi * s := by
          have : bi - 1 + 1 = bi := by omega
          rw [← Nat.succ_mul, Nat.succ_eq_add_one, this]
        rw [h1]
        exact Nat.mul_le_mul_right s (by omega)
      have hd := List.disjoint_take_drop hnd hle
      intro a ha hb
      exact hd (hsub1 ha) (hsub2 hb)

/-- Claim C2 witness: the partition property at seven credentials split
into three batches. -/
theorem get_batch_wallets_partition_witness :
    ((((List.range 3).map (fun i => get_batch_wallets aw7 (i + 1) 3)).flatten)
        = flattenWallets aw7) ∧
    ((flattenWallets aw7).Nodup → ∀ bi bj, 1 ≤ bi → bi < bj →
        (get_batch_wallets aw7 bi 3).Disjoint (get_batch_wallets aw7 bj 3)) ∧
    (∀ bn, get_batch_wallets aw7 bn 3 = get_batch_wallets aw7 bn 3) :=
  get_batch_wallets_partition aw7 3 (by decide)

/-- Claim C3: `get_batch_wallets` implements exactly the spec's slicing
algorithm (ceiling batch size, clamped `[start, end)` slice, empty result
for an empty set or an out-of-range start), and on the 7-credential
3-batch scenario the batch sizes are `[3, 3, 1]` with batch 3 holding
exactly the 7th credential. -/
theorem get_batch_wallets_algorithm (aw : List (String × List Wallet)) (bn B : Nat)
    (hbn : 1 ≤ bn) (hB : 1 ≤ B) :
    (get_batch_wallets aw bn B = specPartitionSlice (flattenWallets aw) bn B) ∧
    ((flattenWallets aw).length ≤ (bn - 1) * batchSize (flattenWallets aw).length B →
        get_batch_wallets aw bn B = []) ∧
    ((List.range 3).map (fun i => (get_batch_wallets aw7 (i + 1) 3).length) = [3, 3, 1]) ∧
    (get_batch_wallets aw7 3 3 = [mkW 7]) := by
  refine ⟨?_, ?_, by decide, by decide⟩
  · by_cases hl : flattenWallets aw = []
    · rw [gbw_empty aw bn B hl, hl]
      simp [specPartitionSlice]
    · have h1 : 1 ≤ (flattenWallets aw).length := List.length_pos.mpr hl
      have hq : 1 ≤ ((flattenWallets aw).length + B - 1) / B := by
        rw [Nat.one_le_div_iff (by omega)]
        omega
      have hbs : batchSize (flattenWallets aw).length B
          = ((flattenWallets aw).length + B - 1) / B := by
        rw [batchSize, max_eq_right hq]
      rw [gbw_slice aw bn B hl, hbs, specPartitionSlice]
      rw [← slice_clamp (flattenWallets aw) ((bn - 1) * (((flattenWallets aw).length + B - 1) / B))]
  · intro hge
    by_cases hl : flattenWallets aw = []
    · exact gbw_empty aw bn B hl
    · rw [gbw_slice aw bn B hl, List.drop_eq_nil_of_le hge]
      simp

/-- Claim C3 witness: the algorithm equivalence instantiated at the
7-credential scenario, batch 2 of 3. -/
theorem get_batch_wallets_algorithm_witness :
    (get_batch_wallets aw7 2 3 = specPartitionSlice (flattenWallets aw7) 2 3) ∧
    ((flattenWallets aw7).length ≤ (2 - 1) * batchSize (flattenWallets aw7).length 3 →
        get_batch_wallets aw7 2 3 = []) ∧
    ((List.range 3).map (fun i => (get_batch_wallets aw7 (i + 1) 3).length) = [3, 3, 1]) ∧
    (get_batch_wallets aw7 3 3 = [mkW 7]) :=
  get_batch_wallets_algorithm aw7 2 3 (by decide) (by decide)

/-! ## Wallet Task Runner lemmas -/

lemma runner_ok_status (env : RunnerEnv) (w : Wallet) (r : WalletResult)
    (h : process_wallet_operations env w = .ok r) : r.status = "completed" := by
  rcases h1 : env.info1 with e | info
  · simp [process_wallet_operations, h1] at h
  · rcases h2 : stakeStep env info
        { initResult w with
            initial_balance := info.balance
            pending_rewards := info.pending_rewards } with e | r2
    · simp [process_wallet_operations, h1, h2] at h
    · rcases h3 : compoundStep env info r2 with e | r3
      · simp [process_wallet_operations, h1, h2, h3] at h
      · rcases h4 : env.info2 with e | fin
        · simp [process_wallet_operations, h1, h2, h3, h4] at h
        · simp only [process_wallet_operations, h1, h2, h3, h4, Except.ok.injEq] at h
          rw [← h]

/-- Claim C6: the runner stakes 80% of the fetched balance exactly when
the balance strictly exceeds `1.0` (the stake provider is consulted only
at the amount `0.8 * balance`, and not at all otherwise), compounds
exactly when fetched pending rewards strictly exceed `0.1`, records
`stake_tx` and `stake_amount` only for a confirmed (truthy) provider
answer, treats a `None` answer as no stake rather than a failure, and on
the scenario (balance `2.0`, rewards `0.05`) stakes `1.6` without
compounding. -/
theorem runner_stake_compound_policy :
    (∀ (env : RunnerEnv) (info : WalletInfo) (r : WalletResult),
        info.balance ≤ 1 → stakeStep env info r = .ok r) ∧
    (∀ (env env' : RunnerEnv) (info : WalletInfo) (r : WalletResult),
        1 < info.balance →
        env.stakeFn (info.balance * (4 / 5)) = env'.stakeFn (info.balance * (4 / 5)) →
        stakeStep env info r = stakeStep env' info r) ∧
    (∀ (env : RunnerEnv) (info : WalletInfo) (r : WalletResult) (t : String),
        1 < info.balance → env.stakeFn (info.balance * (4 / 5)) = .ok (some t) → t ≠ "" →
        stakeStep env info r
          = .ok { r with stake_tx := some t, stake_amount := info.balance * (4 / 5) }) ∧
    (∀ (env : RunnerEnv) (info : WalletInfo) (r : WalletResult),
        env.stakeFn (info.balance * (4 / 5)) = .ok none → stakeStep env info r = .ok r) ∧
    (∀ (env : RunnerEnv) (info : WalletInfo) (r : WalletResult),
        info.pending_rewards ≤ 1 / 10 → compoundStep env info r = .ok r) ∧
    (∀ (env env' : RunnerEnv) (info : WalletInfo) (r : WalletResult),
        1 / 10 < info.pending_rewards → env.compoundFn () = env'.compoundFn () →
        compoundStep env info r = compoundStep env' info r) ∧
    (∀ (env : RunnerEnv) (info : WalletInfo) (r : WalletResult) (t : String),
        1 / 10 < info.pending_rewards → env.compoundFn () = .ok (some t) → t ≠ "" →
        compoundStep env info r
          = .ok { r with compound_tx := some t, compound_amount := info.pending_rewards }) ∧
    (process_wallet_operations envDemo (mkW 1) = .ok resultDemo) := by
  refine ⟨?_, ?_, ?_, ?_, ?_, ?_, ?_, ?_⟩
  · intro env info r h
    simp only [stakeStep]
    rw [if_neg (not_lt.mpr h)]
  · intro env env' info r h hfn
    simp only [stakeStep]
    rw [if_pos h, if_pos h, hfn]
  · intro env info r t h hfn ht
    simp only [stakeStep]
    rw [if_pos h, hfn]
    simp [isTruthy, ht]
  · intro env info r hfn
    by_cases h : 1 < info.balance
    · simp only [stakeStep]
      rw [if_pos h, hfn]
      simp [isTruthy]
    · simp only [stakeStep]
      rw [if_neg h]
  · intro env info r h
    simp only [compoundStep]
    rw [if_neg (not_lt.mpr h)]
  · intro env env' info r h hfn
    simp only [compoundStep]
    rw [if_pos h, if_pos h, hfn]
  · intro env info r t h hfn ht
    simp only [compoundStep]
    rw [if_pos h, hfn]
    simp [isTruthy, ht]
  · norm_num [process_wallet_operations, envDemo, infoDemo, stakeStep, compoundStep,
      initResult, resultDemo, isTruthy, mkW]
    rw [if_neg (by decide)]

/-- Claim C10: a result returned (rather than raised) by the runner always
has status `completed` — the error path re-raises and its dict is
discarded — so every entry of a batch's `wallet_details` whose outcomes
come from the runner has status `completed`. -/
theorem wallet_details_all_completed (bn : Nat)
    (outcomes : List (Except String WalletResult))
    (hsrc : ∀ o ∈ outcomes, ∃ env w, o = process_wallet_operations env w) :
    ∀ r ∈ (process_wallet_batch bn outcomes).wallet_details, r.status = "completed" := by
  intro r hr
  rw [batch_details] at hr
  rcases List.mem_filterMap.mp hr with ⟨o, ho, hok⟩
  rcases o with e | r'
  · simp [okOf] at hok
  · simp only [okOf, Option.some.injEq] at hok
    subst hok
    rcases hsrc _ ho with ⟨env, w, heq⟩
    exact runner_ok_status env w r' heq.symm

/-- Claim C10 witness: a batch whose single outcome is a concrete runner
execution. -/
theorem wallet_details_all_completed_witness :
    ((process_wallet_batch 1 [process_wallet_operations envDemo (mkW 1)]).wallet_details).all
      (fun r => r.status == "completed") = true := by
  rw [List.all_eq_true]
  intro r hr
  rw [beq_iff_eq]
  exact wallet_details_all_completed 1 [process_wallet_operations envDemo (mkW 1)]
    (by
      intro o ho
      rw [List.mem_singleton] at ho
      exact ⟨envDemo, mkW 1, ho⟩)
    r hr

/-- Claim C1: the coordinator aggregates one outcome per dispatched
wallet: `processed` equals the number of dispatched wallets, each raising
wallet adds exactly one to `errors` and contributes no `wallet_details`
entry, and every returned result is aggregated into `wallet_details`
regardless of other wallets' failures. -/
theorem batch_tolerates_failures (bn : Nat) (wallets : List Wallet)
    (outcomes : List (Except String WalletResult))
    (hlen : outcomes.length = wallets.length)
    (hsome : 0 < (outcomes.filter isExn).length) :
    ((process_wallet_batch bn outcomes).processed = wallets.length) ∧
    ((process_wallet_batch bn outcomes).errors = (outcomes.filter isExn).length) ∧
    ((process_wallet_batch bn outcomes).wallet_details = okResults outcomes) ∧
    (∀ r, Except.ok r ∈ outcomes → r ∈ (process_wallet_batch bn outcomes).wallet_details) := by
  refine ⟨by rw [batch_processed, hlen], batch_errors bn outcomes,
    batch_details bn outcomes, ?_⟩
  intro r hr
  rw [batch_details]
  exact List.mem_filterMap.mpr ⟨Except.ok r, hr, rfl⟩

/-- Claim C1 witness: three dispatched wallets, the second of which
raised. -/
theorem batch_tolerates_failures_witness :
    ((process_wallet_batch 7 os3).processed = ws3.length) ∧
    ((process_wallet_batch 7 os3).errors = (os3.filter isExn).length) ∧
    ((process_wallet_batch 7 os3).wallet_details = okResults os3) ∧
    (∀ r, Except.ok r ∈ os3 → r ∈ (process_wallet_batch 7 os3).wallet_details) :=
  batch_tolerates_failures 7 ws3 os3 (by decide) (by decide)

/-- Claim C5: `total_staked` is the sum of `stake_amount` over exactly the
results with a non-null `stake_tx` (the source tests Python truthiness,
which agrees with non-nullness whenever no transaction id is the empty
string — runner-produced ids never are), it is non-negative whenever the
aggregated stake amounts are, `successful_stakes ≤ processed`, and all six
counters are invariant under permuting the outcome order. -/
theorem batch_aggregate_algebra (bn : Nat)
    (os os' : List (Except String WalletResult))
    (hperm : os.Perm os')
    (hnn : ∀ r ∈ okResults os, 0 ≤ r.stake_amount)
    (hne : ∀ r ∈ okResults os, r.stake_tx ≠ some "") :
    ((process_wallet_batch bn os).total_staked
        = (((okResults os).filter (fun r => r.stake_tx.isSome)).map
            WalletResult.stake_amount).sum) ∧
    (0 ≤ (process_wallet_batch bn os).total_staked) ∧
    ((process_wallet_batch bn os).successful_stakes
        ≤ (process_wallet_batch bn os).processed) ∧
    ((process_wallet_batch bn os').processed = (process_wallet_batch bn os).processed) ∧
    ((process_wallet_batch bn os').errors = (process_wallet_batch bn os).errors) ∧
    ((process_wallet_batch bn os').successful_stakes
        = (process_wallet_batch bn os).successful_stakes) ∧
    ((process_wallet_batch bn os').successful_compounds
        = (process_wallet_batch bn os).successful_compounds) ∧
    ((process_wallet_batch bn os').total_staked
        = (process_wallet_batch bn os).total_staked) ∧
    ((process_wallet_batch bn os').total_compounded
        = (process_wallet_batch bn os).total_compounded) := by
  have hfeq : (okResults os).filter hasStake
      = (okResults os).filter (fun r => r.stake_tx.isSome) := by
    refine List.filter_congr ?_
    intro r hr
    rcases hstx : r.stake_tx with _ | t
    · simp [hasStake, isTruthy, hstx]
    · have : t ≠ "" := by
        intro hc
        exact hne r hr (by rw [hstx, hc])
      simp [hasStake, isTruthy, hstx, this]
  have hpok : (okResults os).Perm (okResults os') := hperm.filterMap okOf
  refine ⟨?_, ?_, ?_, ?_, ?_, ?_, ?_, ?_, ?_⟩
  · rw [batch_staked, stakedSum, hfeq]
  · rw [batch_staked, stakedSum]
    refine List.sum_nonneg ?_
    intro x hx
    rcases List.mem_map.mp hx with ⟨r, hr, hxr⟩
    rw [← hxr]
    exact hnn r (List.mem_of_mem_filter hr)
  · rw [batch_stakes, batch_processed]
    calc ((okResults os).filter hasStake).length
        ≤ (okResults os).length := List.length_filter_le _ _
      _ ≤ os.length := List.length_filterMap_le _ _
  · rw [batch_processed, batch_processed, hperm.length_eq]
  · rw [batch_errors, batch_errors, (hperm.filter isExn).length_eq]
  · rw [batch_stakes, batch_stakes, (hpok.filter hasStake).length_eq]
  · rw [batch_compounds, batch_compounds, (hpok.filter hasCompound).length_eq]
  · rw [batch_staked, batch_staked, stakedSum, stakedSum]
    exact (((hpok.filter hasStake).map WalletResult.stake_amount).sum_eq).symm
  · rw [batch_compounded, batch_compounded, compoundedSum, compoundedSum]
    exact (((hpok.filter hasCompound).map WalletResult.compound_amount).sum_eq).symm

/-- Claim C5 witness: the aggregate algebra at three concrete outcomes and
a transposition of them. -/
theorem batch_aggregate_algebra_witness :
    ((process_wallet_batch 7 os3).total_staked
        = (((okResults os3).filter (fun r => r.stake_tx.isSome)).map
            WalletResult.stake_amount).sum) ∧
    (0 ≤ (process_wallet_batch 7 os3).total_staked) ∧
    ((process_wallet_batch 7 os3).successful_stakes
        ≤ (process_wallet_batch 7 os3).processed) ∧
    ((process_wallet_batch 7 os3sw).processed = (process_wallet_batch 7 os3).processed) ∧
    ((process_wallet_batch 7 os3sw).errors = (process_wallet_batch 7 os3).errors) ∧
    ((process_wallet_batch 7 os3sw).successful_stakes
        = (process_wallet_batch 7 os3).successful_stakes) ∧
    ((process_wallet_batch 7 os3sw).successful_compounds
        = (process_wallet_batch 7 os3).successful_compounds) ∧
    ((process_wallet_batch 7 os3sw).total_staked
        = (process_wallet_batch 7 os3).total_staked) ∧
    ((process_wallet_batch 7 os3sw).total_compounded
        = (process_wallet_batch 7 os3).total_compounded) :=
  batch_aggregate_algebra 7 os3 os3sw (List.Perm.swap _ _ _)
    (by
      intro r hr
      have hr' : r = resA ∨ r = resB := by
        simpa [okResults, okOf, os3] using hr
      rcases hr' with h | h <;> rw [h] <;> norm_num [resA, resB])
    (by
      intro r hr
      have hr' : r = resA ∨ r = resB := by
        simpa [okResults, okOf, os3] using hr
      rcases hr' with h | h <;> rw [h] <;> simp [resA, resB])

/-! ## Retry and failure-path lemmas -/

lemma retryFrom_all_fail {α : Type} (f : Nat → Except String α)
    (hfail : ∀ i, ∃ e, f i = .error e) :
    ∀ n i, 1 ≤ n → ∃ e, retryFrom f i n = .error e := by
  intro n
  induction n with
  | zero => intro i h; omega
  | succ n ih =>
    intro i _
    obtain ⟨e, he⟩ := hfail i
    by_cases hn : n = 0
    · exact ⟨e, by simp [retryFrom, he, hn]⟩
    · obtain ⟨e2, he2⟩ := ih (i + 1) (by omega)
      exact ⟨e2, by simp [retryFrom, he, hn, he2]⟩

lemma execute_stake_eq_first (g : Nat → Except String (Option String)) :
    execute_stake_operation g
      = (match g 0 with | .ok v => .ok v | .error _ => .ok none) := by
  rcases h : g 0 with e | v <;> simp [execute_stake_operation, retryFrom, h]

lemma execute_stake_never_fails (g : Nat → Except String (Option String)) :
    ∃ v, execute_stake_operation g = .ok v := by
  rw [execute_stake_eq_first]
  rcases h : g 0 with e | v
  · exact ⟨none, rfl⟩
  · exact ⟨v, rfl⟩

lemma execute_auto_compound_none (body : Except String (Option String)) (addr : String) :
    execute_auto_compound body addr = .ok none := by
  simp only [execute_auto_compound, get_pending_rewards]
  rw [if_neg (by norm_num)]

lemma gwi_pending (f : Nat → Except String ℚ) (addr : String) :
    (get_wallet_info f addr).pending_rewards = 0 := by
  rcases h : get_wallet_balance f with e | b <;>
    simp [get_wallet_info, h, get_pending_rewards]

lemma gwi_fail (f : Nat → Except String ℚ) (addr : String) (m : String)
    (hm : get_wallet_balance f = .error m) :
    get_wallet_info f addr
      = { address := addr, balance := 0, pending_rewards := 0, total_value := 0,
          error := some m } := by
  simp [get_wallet_info, hm]

lemma stakeStep_not_triggered {info : WalletInfo} (h : info.balance ≤ 1) :
    ∀ (env : RunnerEnv) (r : WalletResult), stakeStep env info r = .ok r := by
  intro env r
  simp only [stakeStep]
  rw [if_neg (not_lt.mpr h)]

lemma stakeStep_declined {env : RunnerEnv} {info : WalletInfo}
    (h : env.stakeFn (info.balance * (4 / 5)) = .ok none) :
    ∀ r : WalletResult, stakeStep env info r = .ok r := by
  intro r
  by_cases hb : info.balance > 1
  · simp only [stakeStep]
    rw [if_pos hb, h]
    simp [isTruthy]
  · simp only [stakeStep]
    rw [if_neg hb]

lemma compoundStep_not_triggered {info : WalletInfo} (h : info.pending_rewards ≤ 1 / 10) :
    ∀ (env : RunnerEnv) (r : WalletResult), compoundStep env info r = .ok r := by
  intro env r
  simp only [compoundStep]
  rw [if_neg (not_lt.mpr h)]

lemma stakeStep_ok_of_fn_ok (env : RunnerEnv) (info : WalletInfo) (r : WalletResult)
    (h : ∀ a, ∃ v, env.stakeFn a = .ok v) : ∃ r2, stakeStep env info r = .ok r2 := by
  by_cases hb : info.balance > 1
  · obtain ⟨v, hv⟩ := h (info.balance * (4 / 5))
    by_cases ht : isTruthy v = true
    · refine ⟨{ r with stake_tx := v, stake_amount := info.balance * (4 / 5) }, ?_⟩
      simp only [stakeStep]
      rw [if_pos hb, hv]
      simp [ht]
    · refine ⟨r, ?_⟩
      simp only [stakeStep]
      rw [if_pos hb, hv]
      simp [ht]
  · exact ⟨r, stakeStep_not_triggered (not_lt.mp hb) env r⟩

lemma runner_completes (env : RunnerEnv) (w : Wallet) (info fin : WalletInfo)
    (h1 : env.info1 = .ok info) (h2 : env.info2 = .ok fin)
    (hs : ∀ r, stakeStep env info r = .ok r)
    (hc : ∀ r, compoundStep env info r = .ok r) :
    process_wallet_operations env w
      = .ok { initResult w with
                initial_balance := info.balance
                pending_rewards := info.pending_rewards
                final_balance := fin.balance
                status := "completed" } := by
  simp only [process_wallet_operations, h1, hs, hc, h2]

lemma runner_ok_of_env (env : RunnerEnv) (w : Wallet)
    (hi1 : ∃ i, env.info1 = .ok i) (hi2 : ∃ i, env.info2 = .ok i)
    (hstake : ∀ a, ∃ v, env.stakeFn a = .ok v)
    (hcomp : ∀ r i, ∃ r2, compoundStep env i r = .ok r2) :
    ∃ r, process_wallet_operations env w = .ok r := by
  obtain ⟨i1, h1⟩ := hi1
  obtain ⟨r2, h2⟩ := stakeStep_ok_of_fn_ok env i1
    { initResult w with
        initial_balance := i1.balance
        pending_rewards := i1.pending_rewards } hstake
  obtain ⟨r3, h3⟩ := hcomp r2 i1
  obtain ⟨i2, h4⟩ := hi2
  refine ⟨{ r3 with final_balance := i2.balance, status := "completed" }, ?_⟩
  simp only [process_wallet_operations, h1, h2, h3, h4]

lemma runWalletTask_never_fails (chain : ChainEnv) (w : Wallet) :
    ∃ r, runWalletTask chain w = .ok r := by
  rw [runWalletTask]
  refine runner_ok_of_env _ w ⟨_, rfl⟩ ⟨_, rfl⟩
    (fun a => execute_stake_never_fails _) ?_
  intro r i
  by_cases hp : i.pending_rewards > 1 / 10
  · refine ⟨r, ?_⟩
    simp only [compoundStep]
    rw [if_pos hp, execute_auto_compound_none]
    simp [isTruthy]
  · exact ⟨r, compoundStep_not_triggered (not_lt.mp hp) _ r⟩

/-- Claim C4 counterexample: with every balance-fetch attempt failing (so
all 3 retries are exhausted), the wallet task still returns a result with
status `completed` — not `error` — and the coordinator counts zero errors
for it, because `get_wallet_info` swallows the failure into a zero-balance
default dict. -/
theorem state_fetch_failure_not_marked_error :
    ((okOf (runWalletTask failChain (mkW 2))).map WalletResult.status = some "completed") ∧
    ((process_wallet_batch 1 [runWalletTask failChain (mkW 2)]).errors = 0) := by
  have hm : get_wallet_balance failChain.balanceAttempts1 = .error "network unreachable" := rfl
  have hr := runner_completes
    { info1 := .ok (get_wallet_info failChain.balanceAttempts1 (mkW 2).address)
      stakeFn := fun amount => execute_stake_operation (failChain.stakeAttempts amount)
      compoundFn := fun _ => execute_auto_compound failChain.compoundBody (mkW 2).address
      info2 := .ok (get_wallet_info failChain.balanceAttempts2 (mkW 2).address) }
    (mkW 2)
    { address := (mkW 2).address, balance := 0, pending_rewards := 0, total_value := 0,
      error := some "network unreachable" }
    (get_wallet_info failChain.balanceAttempts2 (mkW 2).address)
    (by rw [gwi_fail _ _ _ hm])
    rfl
    (fun r => stakeStep_not_triggered (by norm_num) _ r)
    (fun r => compoundStep_not_triggered (by norm_num) _ r)
  have hrun : runWalletTask failChain (mkW 2)
      = .ok { initResult (mkW 2) with
                initial_balance := 0
                pending_rewards := 0
                final_balance := (get_wallet_info failChain.balanceAttempts2 (mkW 2).address).balance
                status := "completed" } := by
    rw [runWalletTask]
    exact hr
  constructor
  · rw [hrun]
    rfl
  · rw [batch_errors, hrun]
    rfl

/-- Claim C4 amended: when a wallet's initial state fetch fails all 3
retry attempts, the exhausted retry does surface as an error out of
`get_wallet_balance`, but `get_wallet_info` catches it and returns a
zero-balance default, so the runner completes the wallet with status
`completed`, performs no stake or compound, contributes zero to
`error_count`, and the batch report covers it as a processed wallet. -/
theorem state_fetch_failure_completes (chain : ChainEnv) (w : Wallet)
    (hfail : ∀ i, ∃ e, chain.balanceAttempts1 i = .error e) :
    (∃ m, get_wallet_balance chain.balanceAttempts1 = .error m) ∧
    ((get_wallet_info chain.balanceAttempts1 w.address).balance = 0 ∧
     (get_wallet_info chain.balanceAttempts1 w.address).error.isSome = true) ∧
    (∃ r, runWalletTask chain w = .ok r ∧ r.status = "completed" ∧
        r.stake_tx = none ∧ r.compound_tx = none) ∧
    ((process_wallet_batch 1 [runWalletTask chain w]).errors = 0) ∧
    ((process_wallet_batch 1 [runWalletTask chain w]).processed = 1) := by
  obtain ⟨m, hm⟩ := retryFrom_all_fail chain.balanceAttempts1 hfail 3 0 (by omega)
  have hmb : get_wallet_balance chain.balanceAttempts1 = .error m := hm
  have hrun : runWalletTask chain w
      = .ok { initResult w with
                initial_balance := 0
                pending_rewards := 0
                final_balance := (get_wallet_info chain.balanceAttempts2 w.address).balance
                status := "completed" } := by
    rw [runWalletTask]
    exact runner_completes _ w
      { address := w.address, balance := 0, pending_rewards := 0, total_value := 0,
        error := some m }
      (get_wallet_info chain.balanceAttempts2 w.address)
      (by rw [gwi_fail _ _ _ hmb])
      rfl
      (fun r => stakeStep_not_triggered (by norm_num) _ r)
      (fun r => compoundStep_not_triggered (by norm_num) _ r)
  refine ⟨⟨m, hmb⟩, ?_, ⟨_, hrun, rfl, rfl, rfl⟩, ?_, ?_⟩
  · rw [gwi_fail _ _ _ hmb]
    exact ⟨rfl, rfl⟩
  · rw [batch_errors, hrun]
    rfl
  · rw [batch_processed]
    rfl

/-- Claim C4 amended witness: the failing chain instantiation. -/
theorem state_fetch_failure_completes_witness :
    (∃ m, get_wallet_balance failChain.balanceAttempts1 = .error m) ∧
    ((get_wallet_info failChain.balanceAttempts1 (mkW 4).address).balance = 0 ∧
     (get_wallet_info failChain.balanceAttempts1 (mkW 4).address).error.isSome = true) ∧
    (∃ r, runWalletTask failChain (mkW 4) = .ok r ∧ r.status = "completed" ∧
        r.stake_tx = none ∧ r.compound_tx = none) ∧
    ((process_wallet_batch 1 [runWalletTask failChain (mkW 4)]).errors = 0) ∧
    ((process_wallet_batch 1 [runWalletTask failChain (mkW 4)]).processed = 1) :=
  state_fetch_failure_completes failChain (mkW 4)
    (fun _ => ⟨"network unreachable", rfl⟩)

/-- Claim C7 amended: 3-attempt retry policies with exponential backoff
clamped into `[4, 10]` seconds are configured at the balance-fetch and
stake-submission call sites and absent at the compound-submission site;
exhausted balance retries do surface an error out of `get_wallet_balance`,
but the stake site's internal catch-all converts every failure to a `None`
result, and the composed wallet task never fails at all — so no exhausted
retry ever reaches the Wallet Task Runner as a wallet-level failure. -/
theorem retry_policy_sites_and_propagation :
    (balance_fetch_retry.map RetryPolicy.max_attempts = some 3) ∧
    (stake_submission_retry.map RetryPolicy.max_attempts = some 3) ∧
    (compound_submission_retry = none) ∧
    (∀ a, 4 ≤ wait_exponential 1 4 10 a ∧ wait_exponential 1 4 10 a ≤ 10) ∧
    (∀ f : Nat → Except String ℚ, (∀ i, ∃ e, f i = .error e) →
        ∃ e, get_wallet_balance f = .error e) ∧
    (∀ g : Nat → Except String (Option String), ∃ v, execute_stake_operation g = .ok v) ∧
    (∀ (chain : ChainEnv) (w : Wallet), ∃ r, runWalletTask chain w = .ok r) := by
  refine ⟨rfl, rfl, rfl, ?_, ?_, execute_stake_never_fails, runWalletTask_never_fails⟩
  · intro a
    constructor
    · exact le_max_left _ _
    · exact max_le (by norm_num) (min_le_left _ _)
  · intro f hf
    exact retryFrom_all_fail f hf 3 0 (by omega)

/-- Claim C7 counterexample: every stake-submission attempt raises (the
retries are exhausted at a covered call site), yet no error propagates to
the Wallet Task Runner: the stake call returns `Ok None` and the wallet
completes normally with zero errors counted. -/
theorem stake_retry_exhaustion_not_a_failure :
    (stakeFailChain.stakeAttempts (8 / 5) 0 = .error "submission failed") ∧
    (stakeFailChain.stakeAttempts (8 / 5) 1 = .error "submission failed") ∧
    (stakeFailChain.stakeAttempts (8 / 5) 2 = .error "submission failed") ∧
    (execute_stake_operation (stakeFailChain.stakeAttempts (8 / 5)) = .ok none) ∧
    ((okOf (runWalletTask stakeFailChain (mkW 3))).map WalletResult.status
        = some "completed") ∧
    ((process_wallet_batch 1 [runWalletTask stakeFailChain (mkW 3)]).errors = 0) := by
  have hinfo : get_wallet_info stakeFailChain.balanceAttempts1 (mkW 3).address
      = { address := (mkW 3).address, balance := 2, pending_rewards := 0,
          total_value := 2 + 0, error := none } := by
    simp [get_wallet_info, show get_wallet_balance stakeFailChain.balanceAttempts1
      = .ok 2 from rfl, get_pending_rewards]
  have hrun : runWalletTask stakeFailChain (mkW 3)
      = .ok { initResult (mkW 3) with
                initial_balance := 2
                pending_rewards := 0
                final_balance := (get_wallet_info stakeFailChain.balanceAttempts2 (mkW 3).address).balance
                status := "completed" } := by
    rw [runWalletTask]
    exact runner_completes _ (mkW 3)
      { address := (mkW 3).address, balance := 2, pending_rewards := 0,
        total_value := 2 + 0, error := none }
      (get_wallet_info stakeFailChain.balanceAttempts2 (mkW 3).address)
      (by rw [hinfo]) rfl
      (stakeStep_declined rfl)
      (fun r => compoundStep_not_triggered (by norm_num) _ r)
  refine ⟨rfl, rfl, rfl, rfl, ?_, ?_⟩
  · rw [hrun]
    rfl
  · rw [batch_errors, hrun]
    rfl

/-- Claim C8 counterexample: the summary payload's keys are
`total_staked_hls` / `total_compounded_hls`, not the `total_staked` /
`total_compounded` named in the claim's payload shape. -/
theorem report_summary_keys_mismatch :
    ((report_data 1 "20260101_000000" (initResults 1) (some "0:00:05")).summary.map
        Prod.fst
      ≠ ["wallets_processed", "successful_stakes", "successful_compounds",
         "total_staked", "total_compounded", "errors", "execution_time"]) ∧
    ("total_staked" ∉
      (report_data 1 "20260101_000000" (initResults 1) (some "0:00:05")).summary.map
        Prod.fst) := by
  constructor <;> decide

/-- Claim C8 amended: one report run writes the identical payload to the
timestamped historical file and to the `latest` file; running twice for
the same batch number (with distinct timestamps) leaves the `latest` file
holding exactly the second payload while both distinct historical files
persist; and the summary payload has the shape
`wallets_processed / successful_stakes / successful_compounds /
total_staked_hls / total_compounded_hls / errors / execution_time`. -/
theorem report_files_idempotent_latest (fs : ReportDir) (bn : Nat) (t1 t2 : String)
    (res1 res2 : BatchResults) (et1 et2 : Option String)
    (h12 : t1 ≠ t2) (h1l : t1 ≠ "latest") (h2l : t2 ≠ "latest") :
    ((generate_batch_report fs bn t1 res1 et1) (report_file_name bn t1)
        = some (report_data bn t1 res1 et1) ∧
     (generate_batch_report fs bn t1 res1 et1) (latest_file_name bn)
        = some (report_data bn t1 res1 et1)) ∧
    ((generate_batch_report (generate_batch_report fs bn t1 res1 et1) bn t2 res2 et2)
          (latest_file_name bn) = some (report_data bn t2 res2 et2) ∧
     (generate_batch_report (generate_batch_report fs bn t1 res1 et1) bn t2 res2 et2)
          (report_file_name bn t1) = some (report_data bn t1 res1 et1) ∧
     (generate_batch_report (generate_batch_report fs bn t1 res1 et1) bn t2 res2 et2)
          (report_file_name bn t2) = some (report_data bn t2 res2 et2) ∧
     report_file_name bn t1 ≠ report_file_name bn t2) ∧
    ((report_data bn t1 res1 et1).summary.map Prod.fst
        = ["wallets_processed", "successful_stakes", "successful_compounds",
           "total_staked_hls", "total_compounded_hls", "errors", "execution_time"]) := by
  have hne1 : report_file_name bn t1 ≠ latest_file_name bn :=
    report_file_name_ne_latest bn t1 h1l
  have hne2 : report_file_name bn t2 ≠ latest_file_name bn :=
    report_file_name_ne_latest bn t2 h2l
  have hne12 : report_file_name bn t1 ≠ report_file_name bn t2 :=
    report_file_name_ne bn t1 t2 h12
  refine ⟨⟨?_, ?_⟩, ⟨?_, ?_, ?_, hne12⟩, rfl⟩
  · simp [generate_batch_report, fsWrite, hne1]
  · simp [generate_batch_report, fsWrite]
  · simp [generate_batch_report, fsWrite]
  · simp [generate_batch_report, fsWrite, hne1, hne12]
  · simp [generate_batch_report, fsWrite, hne2]

/-- Claim C8 amended witness: two report runs for batch 1 at distinct
timestamps. -/
theorem report_files_idempotent_latest_witness :
    ((generate_batch_report fsEmpty 1 "20260101_000000" (initResults 1) (some "a"))
          (report_file_name 1 "20260101_000000")
        = some (report_data 1 "20260101_000000" (initResults 1) (some "a")) ∧
     (generate_batch_report fsEmpty 1 "20260101_000000" (initResults 1) (some "a"))
          (latest_file_name 1)
        = some (report_data 1 "20260101_000000" (initResults 1) (some "a"))) ∧
    ((generate_batch_report
          (generate_batch_report fsEmpty 1 "20260101_000000" (initResults 1) (some "a"))
          1 "20260101_000100" (initResults 1) (some "b"))
          (latest_file_name 1)
        = some (report_data 1 "20260101_000100" (initResults 1) (some "b")) ∧
     (generate_batch_report
          (generate_batch_report fsEmpty 1 "20260101_000000" (initResults 1) (some "a"))
          1 "20260101_000100" (initResults 1) (some "b"))
          (report_file_name 1 "20260101_000000")
        = some (report_data 1 "20260101_000000" (initResults 1) (some "a")) ∧
     (generate_batch_report
          (generate_batch_report fsEmpty 1 "20260101_000000" (initResults 1) (some "a"))
          1 "20260101_000100" (initResults 1) (some "b"))
          (report_file_name 1 "20260101_000100")
        = some (report_data 1 "20260101_000100" (initResults 1) (some "b")) ∧
     report_file_name 1 "20260101_000000" ≠ report_file_name 1 "20260101_000100") ∧
    ((report_data 1 "20260101_000000" (initResults 1) (some "a")).summary.map Prod.fst
        = ["wallets_processed", "successful_stakes", "successful_compounds",
           "total_staked_hls", "total_compounded_hls", "errors", "execution_time"]) :=
  report_files_idempotent_latest fsEmpty 1 "20260101_000000" "20260101_000100"
    (initResults 1) (initResults 1) (some "a") (some "b")
    (by decide) (by decide) (by decide)

/-! ## `run_batch` persistence-failure claims -/

/-- Claim C9 counterexample: when the report write raises, `run_batch`
propagates the exception; in particular the human-readable summary —
printed only after `generate_batch_report` returns — is never printed. -/
theorem write_failure_skips_summary :
    run_batch aw7 1 3 os3 (.error "Permission denied") fsEmpty
        "20260101_000000" "0:00:05"
      = .error "Permission denied" := rfl

/-- Claim C9 amended: a failing report write is surfaced, not swallowed:
`run_batch` re-raises the write exception (so the computed `BatchResult`
reaches no consumer and the summary print — sequenced after the write —
does not happen); with a working write, the report is persisted and the
summary printed. -/
theorem write_failure_surfaced (aw : List (String × List Wallet)) (bn B : Nat)
    (outcomes : List (Except String WalletResult)) (fs : ReportDir) (ts et : String)
    (hne : aw.isEmpty = false)
    (hbw : (get_batch_wallets aw bn B).isEmpty = false) :
    (∀ e, run_batch aw bn B outcomes (.error e) fs ts et = .error e) ∧
    (∀ u : Unit, run_batch aw bn B outcomes (.ok u) fs ts et
        = .ok (generate_batch_report fs bn ts (process_wallet_batch bn outcomes) (some et),
               [BatchEvent.report_written, BatchEvent.summary_printed])) := by
  constructor
  · intro e
    simp [run_batch, hne, hbw]
  · intro u
    simp [run_batch, hne, hbw]

/-- Claim C9 amended witness: a concrete run over the 7-credential set. -/
theorem write_failure_surfaced_witness :
    (∀ e, run_batch aw7 2 3 os3 (.error e) fsEmpty "t" "et" = .error e) ∧
    (∀ u : Unit, run_batch aw7 2 3 os3 (.ok u) fsEmpty "t" "et"
        = .ok (generate_batch_report fsEmpty 2 "t" (process_wallet_batch 2 os3) (some "et"),
               [BatchEvent.report_written, BatchEvent.summary_printed])) :=
  write_failure_surfaced aw7 2 3 os3 fsEmpty "t" "et" (by decide) (by decide)

end HeliosSpec
